import Mathlib

/-!
Verification development for the trading-strategy core of this repository:
the Trader XO signal state machine (`src/strategies/trader_xo.py`), the
market-making quote engine (`src/strategies/market_making.py`) and the
strategy-integration boundary (`src/strategies/strategy_integration.py`).

Python floats are modelled as exact rationals (`ℚ`); Python `None` as
`Option`; a raised exception as `Except.error`.  Log calls are elided.
Rationale strings are reproduced except for interpolated numeric values
(Python `:.2f` formatting of floats), which are elided from the text.
Negative slicing `xs[-p:]` is modelled as `xs.drop (xs.length - p)`,
which agrees with Python for `p ≥ 1` (all configured periods are ≥ 1).
-/

/-- Constructor arguments of `TraderXOStrategy.__init__`. -/
structure XOConfig where
  fast_ema_period : Nat
  slow_ema_period : Nat
  ma_filter_period : Nat
  ma_filter_type : String
  stoch_rsi_k : Nat
  stoch_rsi_d : Nat
  stoch_rsi_length : Nat
  stoch_length : Nat
  stoch_upper_band : ℚ
  stoch_middle_band : ℚ
  stoch_lower_band : ℚ
  stop_loss_percent : ℚ
  use_stop_loss : Bool
  use_stoch_confirmation : Bool
deriving DecidableEq, Repr

inductive Signal where
  | buy
  | sell
  | hold
deriving DecidableEq, Repr

/-- The result dict built by `TraderXOStrategy.analyze` (the `ma_filter`
key is initialised to `None` and never written by the code). -/
structure AnalyzeResult where
  signal : Signal
  rationale : String
  stop_loss : Option ℚ
  take_profit : Option ℚ
  fast_ema : Option ℚ
  slow_ema : Option ℚ
  ma_filter : Option ℚ
  stoch_rsi : Option (ℚ × ℚ)
deriving DecidableEq, Repr

/-- One entry of `TraderXOStrategy.prev_states` (lines 465-471): once an
asset has an entry, every key is present; `stoch_rsi` may hold `None`. -/
structure StState where
  buy_count : Nat
  sell_count : Nat
  fast_ema : ℚ
  slow_ema : ℚ
  stoch_rsi : Option (ℚ × ℚ)
deriving DecidableEq, Repr

/-- `TraderXOStrategy.calculate_ema`: seed with the arithmetic mean of the
first `period` prices, then recur with multiplier `2/(period+1)`. -/
def calculate_ema (prices : List ℚ) (period : Nat) : Option ℚ :=
  if prices.isEmpty ∨ prices.length < period then none
  else
    let multiplier : ℚ := 2 / ((period : ℚ) + 1)
    let seed : ℚ := (prices.take period).sum / (period : ℚ)
    some ((prices.drop period).foldl (fun ema price => (price - ema) * multiplier + ema) seed)

/-- `TraderXOStrategy.calculate_sma`. -/
def calculate_sma (prices : List ℚ) (period : Nat) : Option ℚ :=
  if prices.isEmpty ∨ prices.length < period then none
  else some ((prices.drop (prices.length - period)).sum / (period : ℚ))

/-- `TraderXOStrategy.calculate_wma`: weights `1..period`, most recent
price weighted highest. -/
def calculate_wma (prices : List ℚ) (period : Nat) : Option ℚ :=
  if prices.isEmpty ∨ prices.length < period then none
  else
    let recent := prices.drop (prices.length - period)
    let weights := (List.range period).map (fun w => ((w + 1 : Nat) : ℚ))
    some ((List.zipWith (fun p w => p * w) recent weights).sum / weights.sum)

/-- Consecutive price changes `prices[i] - prices[i-1]`, `i = 1..len-1`. -/
def deltas : List ℚ → List ℚ
  | [] => []
  | [_] => []
  | a :: b :: rest => (b - a) :: deltas (b :: rest)

/-- `TraderXOStrategy.calculate_rsi`: averages of positive deltas and of
absolute negative deltas over the trailing `period` changes; RSI is 100
when the average loss is zero. -/
def calculate_rsi (prices : List ℚ) (period : Nat) : Option ℚ :=
  if prices.isEmpty ∨ prices.length < period + 1 then none
  else
    let ds := deltas prices
    let gains := ds.map (fun change => if 0 < change then change else 0)
    let losses := ds.map (fun change => if 0 < change then 0 else |change|)
    if gains.length < period then none
    else
      let avg_gain := (gains.drop (gains.length - period)).sum / (period : ℚ)
      let avg_loss := (losses.drop (losses.length - period)).sum / (period : ℚ)
      if avg_loss = 0 then some 100
      else
        let rs := avg_gain / avg_loss
        some (100 - 100 / (1 + rs))

/-- Python `max(window)` (0 on the empty list, which the code never hits). -/
def listMax : List ℚ → ℚ
  | [] => 0
  | x :: xs => xs.foldl max x

/-- Python `min(window)`. -/
def listMin : List ℚ → ℚ
  | [] => 0
  | x :: xs => xs.foldl min x

/-- The `rsi_values` series of `calculate_stochastic_rsi`: RSI of each
prefix `prices[:i]` for `i = stoch_rsi_length .. len(prices)`, keeping
only the non-`None` values. -/
def rsiSeries (cfg : XOConfig) (prices : List ℚ) : List ℚ :=
  (List.range' cfg.stoch_rsi_length (prices.length + 1 - cfg.stoch_rsi_length)).filterMap
    (fun i => calculate_rsi (prices.take i) cfg.stoch_rsi_length)

/-- The `stoch_values` series of `calculate_stochastic_rsi`: raw
stochastic of the RSI series over rolling windows of `stoch_length`;
50 whenever the window's max equals its min. -/
def stochSeries (cfg : XOConfig) (rsi_values : List ℚ) : List ℚ :=
  (List.range' cfg.stoch_length (rsi_values.length + 1 - cfg.stoch_length)).map
    (fun i =>
      let window := (rsi_values.drop (i - cfg.stoch_length)).take cfg.stoch_length
      let highest := listMax window
      let lowest := listMin window
      if highest = lowest then 50
      else 100 * (rsi_values.getD (i - 1) 0 - lowest) / (highest - lowest))

/-- `TraderXOStrategy.calculate_stochastic_rsi`: K is the SMA of the last
`stoch_rsi_k` raw stochastic values; D is the SMA of the last
`stoch_rsi_d` values of a recomputed rolling-K series, falling back to
`d = k` when the history is too short. -/
def calculate_stochastic_rsi (cfg : XOConfig) (prices : List ℚ) : Option (ℚ × ℚ) :=
  if prices.isEmpty ∨ prices.length < cfg.stoch_rsi_length + cfg.stoch_length then none
  else
    let rsi_values := rsiSeries cfg prices
    if rsi_values.length < cfg.stoch_length then none
    else
      let stoch_values := stochSeries cfg rsi_values
      if stoch_values.length < cfg.stoch_rsi_k then none
      else
        let k := (stoch_values.drop (stoch_values.length - cfg.stoch_rsi_k)).sum / (cfg.stoch_rsi_k : ℚ)
        let d :=
          if stoch_values.length < cfg.stoch_rsi_k + cfg.stoch_rsi_d then k
          else
            let k_values := (List.range' cfg.stoch_rsi_k (stoch_values.length + 1 - cfg.stoch_rsi_k)).map
              (fun i => ((stoch_values.drop (i - cfg.stoch_rsi_k)).take cfg.stoch_rsi_k).sum / (cfg.stoch_rsi_k : ℚ))
            (k_values.drop (k_values.length - cfg.stoch_rsi_d)).sum / (cfg.stoch_rsi_d : ℚ)
        some (k, d)

/-- `TraderXOStrategy.check_ma_filter`: an unavailable MA value (including
an unrecognised `ma_filter_type`) allows the trade after a warning. -/
def check_ma_filter (cfg : XOConfig) (current_price : ℚ) (prices : List ℚ) (is_buy : Bool) : Bool :=
  if cfg.ma_filter_type = "None" then true
  else
    let ma_value : Option ℚ :=
      if cfg.ma_filter_type = "EMA" then calculate_ema prices cfg.ma_filter_period
      else if cfg.ma_filter_type = "SMA" then calculate_sma prices cfg.ma_filter_period
      else if cfg.ma_filter_type = "WMA" then calculate_wma prices cfg.ma_filter_period
      else none
    match ma_value with
    | none => true
    | some m => if is_buy then decide (current_price > m) else decide (current_price < m)

/-- `prev_state.get("buy_count", 0)`: 0 when the asset has no entry. -/
def bcount : Option StState → Nat
  | none => 0
  | some s => s.buy_count

/-- `prev_state.get("sell_count", 0)`. -/
def scount : Option StState → Nat
  | none => 0
  | some s => s.sell_count

/-- Debounce update (`analyze` lines 365-370): the side currently
trending is incremented and the opposite counter is zeroed; equal EMAs
leave both counters unchanged. -/
def updateCounts (prev_buy prev_sell : Nat) (fast_cur slow_cur : ℚ) : Nat × Nat :=
  if fast_cur > slow_cur then (prev_buy + 1, 0)
  else if fast_cur < slow_cur then (0, prev_sell + 1)
  else (prev_buy, prev_sell)

/-- `bullish_cross` (line 353). -/
def bullishCross (fast_prev slow_prev fast_cur slow_cur : ℚ) : Bool :=
  decide (fast_prev ≤ slow_prev) && decide (fast_cur > slow_cur)

/-- `bearish_cross` (line 354). -/
def bearishCross (fast_prev slow_prev fast_cur slow_cur : ℚ) : Bool :=
  decide (fast_prev ≥ slow_prev) && decide (fast_cur < slow_cur)

/-- `buysignal` (line 373). -/
def buysignalB (buy_count sell_count : Nat) (bullish_cross : Bool) : Bool :=
  decide (buy_count < 2) && decide (buy_count > 0) && decide (sell_count < 1) && bullish_cross

/-- `sellsignal` (line 374). -/
def sellsignalB (buy_count sell_count : Nat) (bearish_cross : Bool) : Bool :=
  decide (sell_count > 0) && decide (sell_count < 2) && decide (buy_count < 1) && bearish_cross

/-- `prev_state.get("stoch_rsi", {"k": k, "d": d})` (line 386): the
default only applies when the asset has no stored entry at all; a stored
entry always carries the key, so its value is returned even when it is
`None` (the subsequent `prev_stoch["k"]` then raises `TypeError`). -/
def prevStochGet (prev : Option StState) (k d : ℚ) : Option (ℚ × ℚ) :=
  match prev with
  | none => some (k, d)
  | some s => s.stoch_rsi

/-- The stochastic-confirmation block (`analyze` lines 377-395).  Returns
the confirmation flag together with the computed Stochastic RSI (the
value written into the result dict), or the `TypeError` raised when the
stored previous `stoch_rsi` is `None`. -/
def stochGate (cfg : XOConfig) (prices : List ℚ) (prev : Option StState)
    (buysignal sellsignal : Bool) : Except String (Bool × Option (ℚ × ℚ)) :=
  if cfg.use_stoch_confirmation then
    match calculate_stochastic_rsi cfg prices with
    | some kd =>
      match prevStochGet prev kd.1 kd.2 with
      | none => .error "TypeError: NoneType object is not subscriptable"
      | some pkd =>
        let k := kd.1
        let d := kd.2
        let prev_k := pkd.1
        let prev_d := pkd.2
        let k_cross_up := decide (prev_k ≤ prev_d) && decide (k > d)
          && (decide (k < cfg.stoch_middle_band) || decide (d < cfg.stoch_middle_band))
        let k_cross_down := decide (prev_k ≥ prev_d) && decide (k < d)
          && (decide (k > cfg.stoch_middle_band) || decide (d > cfg.stoch_middle_band))
        let conf1 := if buysignal && !k_cross_up then false else true
        let conf2 := if sellsignal && !k_cross_down then false else conf1
        .ok (conf2, some kd)
    | none => .ok (true, none)
  else .ok (true, none)

/-- Python `", ".join(reasons)`. -/
def joinReasons : List String → String
  | [] => ""
  | [r] => r
  | r :: rs => r ++ ", " ++ joinReasons rs

/-- The fresh result dict of `analyze` (lines 286-295). -/
def emptyResult : AnalyzeResult :=
  { signal := .hold, rationale := "", stop_loss := none, take_profit := none,
    fast_ema := none, slow_ema := none, ma_filter := none, stoch_rsi := none }

/-- Signal emission (`analyze` lines 397-462): MA filter and stochastic
confirmation gate the crossover signals; stop loss and 2:1 take profit
are attached on success.  Interpolated numeric values are elided from
the rationale text. -/
def emitResult (cfg : XOConfig) (current_price fast_cur slow_cur : ℚ) (prices : List ℚ)
    (buysignal sellsignal stoch_confirmation : Bool) (stoch_val : Option (ℚ × ℚ)) : AnalyzeResult :=
  let base : AnalyzeResult :=
    { signal := .hold, rationale := "", stop_loss := none, take_profit := none,
      fast_ema := some fast_cur, slow_ema := some slow_cur, ma_filter := none,
      stoch_rsi := stoch_val }
  let maNote := cfg.ma_filter_type ++ "(" ++ toString cfg.ma_filter_period ++ ")"
  let stochNote :=
    if cfg.use_stoch_confirmation && stoch_val.isSome then "StochRSI K/D crossover confirmed. " else ""
  if buysignal then
    let ma_filter_pass := check_ma_filter cfg current_price prices true
    if ma_filter_pass && stoch_confirmation then
      let rationale := "BUY: Fast EMA crossed above Slow EMA. "
        ++ (if cfg.ma_filter_type ≠ "None" then "Price above " ++ maNote ++ ". " else "")
        ++ stochNote
      let stop_loss : Option ℚ :=
        if cfg.use_stop_loss then some (current_price * (1 - cfg.stop_loss_percent / 100)) else none
      let risk : ℚ :=
        match stop_loss with
        | some s => if s = 0 then current_price * (7 / 100) else current_price - s
        | none => current_price * (7 / 100)
      { base with
        signal := .buy
        rationale := rationale
        stop_loss := stop_loss
        take_profit := some (current_price + risk * 2) }
    else
      let reasons :=
        (if !ma_filter_pass then ["price below " ++ maNote] else [])
        ++ (if !stoch_confirmation then ["StochRSI not confirmed"] else [])
      { base with rationale := "BUY signal filtered out: " ++ joinReasons reasons }
  else if sellsignal then
    let ma_filter_pass := check_ma_filter cfg current_price prices false
    if ma_filter_pass && stoch_confirmation then
      let rationale := "SELL: Fast EMA crossed below Slow EMA. "
        ++ (if cfg.ma_filter_type ≠ "None" then "Price below " ++ maNote ++ ". " else "")
        ++ stochNote
      let stop_loss : Option ℚ :=
        if cfg.use_stop_loss then some (current_price * (1 + cfg.stop_loss_percent / 100)) else none
      let risk : ℚ :=
        match stop_loss with
        | some s => if s = 0 then current_price * (7 / 100) else s - current_price
        | none => current_price * (7 / 100)
      { base with
        signal := .sell
        rationale := rationale
        stop_loss := stop_loss
        take_profit := some (current_price - risk * 2) }
    else
      let reasons :=
        (if !ma_filter_pass then ["price above " ++ maNote] else [])
        ++ (if !stoch_confirmation then ["StochRSI not confirmed"] else [])
      { base with rationale := "SELL signal filtered out: " ++ joinReasons reasons }
  else
    if fast_cur > slow_cur then
      { base with rationale := "HOLD: Bullish trend (Fast EMA > Slow EMA), waiting for signal" }
    else if fast_cur < slow_cur then
      { base with rationale := "HOLD: Bearish trend (Fast EMA < Slow EMA), waiting for signal" }
    else
      { base with rationale := "HOLD: EMAs aligned, no clear trend" }

/-- Body of `analyze` after the four EMA values have been obtained
(lines 352-473): crossover detection, debounce update, signal flags,
stochastic gate, emission, and the state written back for the asset. -/
def analyzeCore (cfg : XOConfig) (current_price : ℚ) (prices : List ℚ) (prev : Option StState)
    (fast_cur fast_prev slow_cur slow_prev : ℚ) : Except String (AnalyzeResult × Option StState) :=
  let bullish_cross := bullishCross fast_prev slow_prev fast_cur slow_cur
  let bearish_cross := bearishCross fast_prev slow_prev fast_cur slow_cur
  let counts := updateCounts (bcount prev) (scount prev) fast_cur slow_cur
  let buysignal := buysignalB counts.1 counts.2 bullish_cross
  let sellsignal := sellsignalB counts.1 counts.2 bearish_cross
  match stochGate cfg prices prev buysignal sellsignal with
  | .error e => .error e
  | .ok conf_stoch =>
    let result := emitResult cfg current_price fast_cur slow_cur prices
      buysignal sellsignal conf_stoch.1 conf_stoch.2
    -- line 470: `result.get("stoch_rsi", ...)` always finds the key, so the
    -- stored value is exactly this call's computed Stochastic RSI (maybe none)
    .ok (result, some { buy_count := counts.1
                        sell_count := counts.2
                        fast_ema := fast_cur
                        slow_ema := slow_cur
                        stoch_rsi := conf_stoch.2 })

/-- `TraderXOStrategy.analyze` with no external indicator source
(`taapi_client=None`), for one asset: takes the asset's stored state and
returns the result dict together with the asset's new stored state
(unchanged on the two early returns). -/
def analyze (cfg : XOConfig) (current_price : ℚ) (prices : List ℚ)
    (prev : Option StState) : Except String (AnalyzeResult × Option StState) :=
  if prices.isEmpty ∨ prices.length < max cfg.fast_ema_period cfg.slow_ema_period then
    .ok ({ emptyResult with rationale := "Insufficient price data" }, prev)
  else
    match calculate_ema prices cfg.fast_ema_period,
          calculate_ema prices.dropLast cfg.fast_ema_period,
          calculate_ema prices cfg.slow_ema_period,
          calculate_ema prices.dropLast cfg.slow_ema_period with
    | some fc, some fp, some sc, some sp => analyzeCore cfg current_price prices prev fc fp sc sp
    | _, _, _, _ => .ok ({ emptyResult with rationale := "Unable to calculate EMAs" }, prev)

/-- Sequential per-bar `analyze` calls on one asset, threading the stored
state; a raised exception aborts the run. -/
def runState (cfg : XOConfig) : List (ℚ × List ℚ) → Option StState → Except String (Option StState)
  | [], st => .ok st
  | c :: cs, st =>
    match analyze cfg c.1 c.2 st with
    | .ok rs => runState cfg cs rs.2
    | .error e => .error e

/-- The result dicts of sequential per-bar `analyze` calls on one asset;
a raised exception aborts the run. -/
def analyzeTrace (cfg : XOConfig) : List (ℚ × List ℚ) → Option StState → List AnalyzeResult
  | [], _ => []
  | c :: cs, st =>
    match analyze cfg c.1 c.2 st with
    | .ok rs => rs.1 :: analyzeTrace cfg cs rs.2
    | .error _ => []

/-- The signal of a completed `analyze` call, `none` if it raised. -/
def okSignal (e : Except String (AnalyzeResult × Option StState)) : Option Signal :=
  match e with
  | .ok rs => some rs.1.signal
  | .error _ => none

/-- A result dict whose EMAs witness a bearish bar (fast < slow). -/
def isBearishBarB (r : AnalyzeResult) : Bool :=
  match r.fast_ema, r.slow_ema with
  | some f, some s => decide (f < s)
  | _, _ => false

/-- A result dict whose EMAs witness a bullish bar (fast > slow). -/
def isBullishBarB (r : AnalyzeResult) : Bool :=
  match r.fast_ema, r.slow_ema with
  | some f, some s => decide (f > s)
  | _, _ => false

/-- `StrategyIntegration.__init__` (lines 22-57): only the strategy name
`"trader_xo"` is accepted; any other name raises `ValueError`.  The
config-dict defaulting is elided: the constructed strategy's
configuration is the given one. -/
def strategyIntegrationInit (strategy_name : String) (cfg : XOConfig) : Except String XOConfig :=
  if strategy_name = "trader_xo" then .ok cfg
  else .error ("Unknown strategy: " ++ strategy_name)

/-- Constructor arguments of `MarketMakingStrategy.__init__` (the
wall-clock refresh bookkeeping is outside the claims and elided). -/
structure MMConfig where
  spread_bps : ℚ
  order_size_usd : ℚ
  num_levels : Nat
  level_spacing_bps : ℚ
  skew_on_signal : Bool
  skew_amount : ℚ
deriving DecidableEq, Repr

/-- One bid or ask level dict of `calculate_order_levels`. -/
structure QuoteLevel where
  price : ℚ
  size : ℚ
  size_usd : ℚ
  level : Nat
  offset_bps : ℚ
deriving DecidableEq, Repr

/-- Size skew (`calculate_order_levels` lines 99-111): the favored side
gets `1 + skew_amount`, the other `1 - skew_amount`; returns
(bid multiplier, ask multiplier).  A `None` or empty-string signal is
falsy in Python and leaves both multipliers at 1. -/
def sizeMultipliers (cfg : MMConfig) (directional_signal : Option String) : ℚ × ℚ :=
  if cfg.skew_on_signal then
    match directional_signal with
    | some s =>
      if s = "buy" then (1 + cfg.skew_amount, 1 - cfg.skew_amount)
      else if s = "sell" then (1 - cfg.skew_amount, 1 + cfg.skew_amount)
      else (1, 1)
    | none => (1, 1)
  else (1, 1)

/-- The dict returned by `calculate_order_levels`. -/
structure OrderLevels where
  bids : List QuoteLevel
  asks : List QuoteLevel
  mid_price : ℚ
  directional_signal : Option String
deriving DecidableEq, Repr

/-- `MarketMakingStrategy.calculate_order_levels` (lines 81-148): for
level `i`, `offset_bps = spread_bps + i * level_spacing_bps`;
`bid = mid * (1 - offset/10000)`, `ask = mid * (1 + offset/10000)`;
`size_usd = order_size_usd * multiplier`, `size = size_usd / mid`. -/
def calculate_order_levels (cfg : MMConfig) (mid_price : ℚ)
    (directional_signal : Option String) : OrderLevels :=
  let m := sizeMultipliers cfg directional_signal
  let bids := (List.range cfg.num_levels).map (fun (level : Nat) =>
    let offset_bps := cfg.spread_bps + (level : ℚ) * cfg.level_spacing_bps
    { price := mid_price * (1 - offset_bps / 10000)
      size := cfg.order_size_usd * m.1 / mid_price
      size_usd := cfg.order_size_usd * m.1
      level := level
      offset_bps := offset_bps : QuoteLevel })
  let asks := (List.range cfg.num_levels).map (fun (level : Nat) =>
    let offset_bps := cfg.spread_bps + (level : ℚ) * cfg.level_spacing_bps
    { price := mid_price * (1 + offset_bps / 10000)
      size := cfg.order_size_usd * m.2 / mid_price
      size_usd := cfg.order_size_usd * m.2
      level := level
      offset_bps := offset_bps : QuoteLevel })
  { bids := bids, asks := asks, mid_price := mid_price,
    directional_signal := directional_signal }

/-- The plan dict fields that `adjust_for_inventory` reads or writes
(asset, timestamp, refresh flag and rationale are carried unchanged and
elided). -/
structure MMPlan where
  mid_price : ℚ
  directional_signal : Option String
  bids : List QuoteLevel
  asks : List QuoteLevel
  total_bid_size_usd : ℚ
  total_ask_size_usd : ℚ
  inventory_adjustment : Option String
deriving DecidableEq, Repr

/-- In-place `level["size"] *= factor; level["size_usd"] *= factor`. -/
def scaleLevel (factor : ℚ) (l : QuoteLevel) : QuoteLevel :=
  { l with size := l.size * factor, size_usd := l.size_usd * factor }

/-- The long-inventory branch of `adjust_for_inventory` (lines 283-292,
305-307): shrink bids by `1 - adjustment`, grow asks by
`1 + adjustment`, recompute both totals.  The interpolated position in
the note string is elided. -/
def longAdjusted (plan : MMPlan) (adjustment : ℚ) : MMPlan :=
  let bids := plan.bids.map (scaleLevel (1 - adjustment))
  let asks := plan.asks.map (scaleLevel (1 + adjustment))
  { plan with
    bids := bids
    asks := asks
    inventory_adjustment := some "Long position: reducing bids, increasing asks"
    total_bid_size_usd := (bids.map (fun b => b.size_usd)).sum
    total_ask_size_usd := (asks.map (fun a => a.size_usd)).sum }

/-- The short-inventory branch (lines 294-307): mirror of the long one. -/
def shortAdjusted (plan : MMPlan) (adjustment : ℚ) : MMPlan :=
  let bids := plan.bids.map (scaleLevel (1 + adjustment))
  let asks := plan.asks.map (scaleLevel (1 - adjustment))
  { plan with
    bids := bids
    asks := asks
    inventory_adjustment := some "Short position: increasing bids, reducing asks"
    total_bid_size_usd := (bids.map (fun b => b.size_usd)).sum
    total_ask_size_usd := (asks.map (fun a => a.size_usd)).sum }

/-- `MarketMakingStrategy.adjust_for_inventory` (lines 254-309). -/
def adjust_for_inventory (plan : MMPlan) (current_position max_position : ℚ) : MMPlan :=
  if max_position = 0 then plan
  else
    let inventory_ratio := current_position / max_position
    if |inventory_ratio| > 3 / 10 then
      let adjustment := min |inventory_ratio| (1 / 2)
      if inventory_ratio > 0 then longAdjusted plan adjustment
      else shortAdjusted plan adjustment
    else plan

/-- The stored state of a completed `analyze` call, `none` if it raised. -/
def okState (e : Except String (AnalyzeResult × Option StState)) : Option (Option StState) :=
  match e with
  | .ok rs => some rs.2
  | .error _ => none

/-- Per-bar calls: call `t` passes the prefix `prices[: t+1]` as history
and its last element as the current price. -/
def callsOf (ps : List ℚ) : List (ℚ × List ℚ) :=
  (List.range ps.length).map (fun t => (ps.getD t 0, ps.take (t + 1)))

/-- Small-period configuration used for the C1 failing input:
stochastic confirmation on, MA filter off. -/
def cfgC1 : XOConfig :=
  { fast_ema_period := 2, slow_ema_period := 3, ma_filter_period := 200,
    ma_filter_type := "None", stoch_rsi_k := 2, stoch_rsi_d := 2,
    stoch_rsi_length := 2, stoch_length := 2, stoch_upper_band := 80,
    stoch_middle_band := 50, stoch_lower_band := 20, stop_loss_percent := 7,
    use_stop_loss := true, use_stoch_confirmation := true }

/-- Configuration with an unrecognised MA filter type, stochastic
confirmation off. -/
def cfgBadMA : XOConfig :=
  { fast_ema_period := 2, slow_ema_period := 3, ma_filter_period := 200,
    ma_filter_type := "MEDIAN", stoch_rsi_k := 3, stoch_rsi_d := 3,
    stoch_rsi_length := 14, stoch_length := 14, stoch_upper_band := 80,
    stoch_middle_band := 50, stoch_lower_band := 20, stop_loss_percent := 7,
    use_stop_loss := true, use_stoch_confirmation := false }

/-- Default market-making configuration of the example in the spec:
half-spread 10 bps, 3 levels, 5 bps spacing, $100 per level. -/
def mmCfgStd : MMConfig :=
  { spread_bps := 10, order_size_usd := 100, num_levels := 3,
    level_spacing_bps := 5, skew_on_signal := true, skew_amount := 3 / 10 }

/-- Market-making configuration with two levels and zero level spacing. -/
def mmCfgFlat : MMConfig :=
  { spread_bps := 10, order_size_usd := 100, num_levels := 2,
    level_spacing_bps := 0, skew_on_signal := true, skew_amount := 3 / 10 }

/-- A one-level plan used to instantiate the C8 theorem. -/
def planC8W : MMPlan :=
  { mid_price := 100, directional_signal := none,
    bids := [{ price := 99, size := 1, size_usd := 100, level := 0, offset_bps := 10 }],
    asks := [{ price := 101, size := 1, size_usd := 100, level := 0, offset_bps := 10 }],
    total_bid_size_usd := 100, total_ask_size_usd := 100,
    inventory_adjustment := none }

/-- Configuration used to instantiate the C3 invariant. -/
def cfgC3W : XOConfig :=
  { fast_ema_period := 2, slow_ema_period := 3, ma_filter_period := 200,
    ma_filter_type := "None", stoch_rsi_k := 3, stoch_rsi_d := 3,
    stoch_rsi_length := 14, stoch_length := 14, stoch_upper_band := 80,
    stoch_middle_band := 50, stoch_lower_band := 20, stop_loss_percent := 7,
    use_stop_loss := true, use_stoch_confirmation := false }

/-- The stored state after one flat-price call under `cfgC3W`. -/
def stC3W : StState :=
  { buy_count := 0, sell_count := 0, fast_ema := 5, slow_ema := 5, stoch_rsi := none }

/-- Configuration of the C2 scenario: small EMA periods, MA filter and
stochastic confirmation off. -/
def cfgC2 : XOConfig :=
  { fast_ema_period := 2, slow_ema_period := 3, ma_filter_period := 200,
    ma_filter_type := "None", stoch_rsi_k := 3, stoch_rsi_d := 3,
    stoch_rsi_length := 14, stoch_length := 14, stoch_upper_band := 80,
    stoch_middle_band := 50, stoch_lower_band := 20, stop_loss_percent := 7,
    use_stop_loss := true, use_stoch_confirmation := false }

/-- A monotonically rising-then-falling price path that crosses the slow
EMA (flat start, rise, fall). -/
def pricesC2 : List ℚ := [5, 5, 5, 5, 6, 7, 8, 9, 8, 7, 6, 5]

def callsC2 : List (ℚ × List ℚ) := callsOf pricesC2

/-- A price path on which two buys are emitted (rise, fall, rise). -/
def pricesC2W : List ℚ := [5, 5, 5, 5, 6, 7, 4, 3, 3, 3, 4, 6]

def callsC2W : List (ℚ × List ℚ) := callsOf pricesC2W

/-- Small-period configuration instantiating the C9 theorem. -/
def cfgC9W : XOConfig :=
  { fast_ema_period := 2, slow_ema_period := 3, ma_filter_period := 200,
    ma_filter_type := "None", stoch_rsi_k := 2, stoch_rsi_d := 2,
    stoch_rsi_length := 2, stoch_length := 2, stoch_upper_band := 80,
    stoch_middle_band := 50, stoch_lower_band := 20, stop_loss_percent := 7,
    use_stop_loss := true, use_stoch_confirmation := true }

/-- Configuration instantiating the C10 theorem: stochastic confirmation
on, small periods, first call with a bullish cross and computable
Stochastic RSI. -/
def cfgC10W : XOConfig :=
  { fast_ema_period := 2, slow_ema_period := 3, ma_filter_period := 200,
    ma_filter_type := "None", stoch_rsi_k := 2, stoch_rsi_d := 2,
    stoch_rsi_length := 2, stoch_length := 2, stoch_upper_band := 80,
    stoch_middle_band := 50, stoch_lower_band := 20, stop_loss_percent := 7,
    use_stop_loss := true, use_stoch_confirmation := true }

deriving instance DecidableEq for Except

section
attribute [local semireducible] Rat.mul Rat.add Rat.sub Rat.inv Rat.ofScientific
set_option maxRecDepth 100000

/-- Claim C1 (code bug): `analyze` CAN raise out to its caller.  With
stochastic confirmation enabled, a first call whose history is long
enough for the EMAs but too short for Stochastic RSI stores
`stoch_rsi = None` in the asset state (line 470 reads the result key,
which is always present, so the stored value is this call's `None`).
On the next call Stochastic RSI computes, `prev_state.get("stoch_rsi",
{"k": k, "d": d})` (line 386) finds the key and returns the stored
`None` — the written default never applies — and `prev_stoch["k"]`
(line 387) raises `TypeError`, contradicting the spec's "this component
never raises an error out to its caller". -/
theorem analyze_raises_C1 :
    okState (analyze cfgC1 5 [5, 5, 5, 5] none)
      = some (some { buy_count := 0, sell_count := 0, fast_ema := 5, slow_ema := 5, stoch_rsi := none })
    ∧ runState cfgC1 [((5 : ℚ), [5, 5, 5, 5]), ((6 : ℚ), [5, 5, 5, 5, 6])] none
      = .error "TypeError: NoneType object is not subscriptable" := by
  decide

/-- Claim C4: the signal flags computed by `analyze` (lines 352-374).
`buysignal` holds iff the post-increment counters satisfy
`0 < buy_count < 2` and `sell_count < 1` and a bullish cross
(`prev_fast ≤ prev_slow` and `cur_fast > cur_slow`) was detected;
`sellsignal` is the exact mirror. -/
theorem signal_flags_C4 (prev_buy prev_sell : Nat) (fp sp fc sc : ℚ) :
    (buysignalB (updateCounts prev_buy prev_sell fc sc).1 (updateCounts prev_buy prev_sell fc sc).2
        (bullishCross fp sp fc sc) = true
      ↔ (0 < (updateCounts prev_buy prev_sell fc sc).1
          ∧ (updateCounts prev_buy prev_sell fc sc).1 < 2
          ∧ (updateCounts prev_buy prev_sell fc sc).2 < 1
          ∧ fp ≤ sp ∧ fc > sc))
    ∧ (sellsignalB (updateCounts prev_buy prev_sell fc sc).1 (updateCounts prev_buy prev_sell fc sc).2
        (bearishCross fp sp fc sc) = true
      ↔ (0 < (updateCounts prev_buy prev_sell fc sc).2
          ∧ (updateCounts prev_buy prev_sell fc sc).2 < 2
          ∧ (updateCounts prev_buy prev_sell fc sc).1 < 1
          ∧ fp ≥ sp ∧ fc < sc)) := by
  constructor <;>
    simp [buysignalB, sellsignalB, bullishCross, bearishCross,
      Bool.and_eq_true, decide_eq_true_eq] <;>
    tauto

/-- Counterexample to claim C6 as stated: with the unknown MA filter type
"MEDIAN" (not in {EMA, SMA, WMA, None}), analysis is NOT rejected: it
silently proceeds — `check_ma_filter` computes no MA value and returns
`True` (line 255-257), and `analyze` even emits a buy signal. -/
theorem unknown_ma_filter_not_fatal_C6 :
    okSignal (analyze cfgBadMA 6 [5, 5, 5, 5, 6] none) = some Signal.buy
    ∧ check_ma_filter cfgBadMA 6 [5, 5, 5, 5, 6] true = true := by
  decide

/-- Claim C6 (amended): an unsupported strategy name is rejected at the
`StrategyIntegration` boundary with a fatal `ValueError`; an unknown MA
filter type, however, is NOT rejected — `check_ma_filter` finds no MA
value, logs a warning and treats the filter as passing, so analysis
silently proceeds. -/
theorem config_boundary_C6 (name : String) (cfg : XOConfig) (cp : ℚ) (prices : List ℚ) (b : Bool)
    (hname : name ≠ "trader_xo")
    (h1 : cfg.ma_filter_type ≠ "None") (h2 : cfg.ma_filter_type ≠ "EMA")
    (h3 : cfg.ma_filter_type ≠ "SMA") (h4 : cfg.ma_filter_type ≠ "WMA") :
    strategyIntegrationInit name cfg = .error ("Unknown strategy: " ++ name)
    ∧ check_ma_filter cfg cp prices b = true := by
  constructor
  · simp [strategyIntegrationInit, hname]
  · simp [check_ma_filter, h1, h2, h3, h4]

theorem config_boundary_C6_witness :
    strategyIntegrationInit "llm" cfgBadMA = .error ("Unknown strategy: " ++ "llm")
    ∧ check_ma_filter cfgBadMA 1 [] true = true :=
  config_boundary_C6 "llm" cfgBadMA 1 [] true (by decide) (by decide) (by decide)
    (by decide) (by decide)

/-- Counterexample to claim C5 as stated: `mmCfgFlat` has
`num_levels = 2 ≥ 1` and `level_spacing_bps = 0 ≥ 0`, yet the bid
offsets are [10, 10] — NOT strictly increasing with the level index. -/
theorem order_levels_flat_not_strict_C5 :
    (1 ≤ mmCfgFlat.num_levels ∧ 0 ≤ mmCfgFlat.level_spacing_bps)
    ∧ ((calculate_order_levels mmCfgFlat 100 none).bids.map (fun l => l.offset_bps)) = [10, 10]
    ∧ ¬ List.Pairwise (fun a b : ℚ => a < b)
        ((calculate_order_levels mmCfgFlat 100 none).bids.map (fun l => l.offset_bps)) := by
  refine ⟨by decide, by decide, ?_⟩
  have h2 : ((calculate_order_levels mmCfgFlat 100 none).bids.map (fun l => l.offset_bps))
      = [10, 10] := by decide
  rw [h2]
  intro h
  rcases List.pairwise_cons.mp h with ⟨h10, -⟩
  exact absurd (h10 10 (by simp)) (by norm_num)

/-- Claim C5 (amended): for every mid price, directional signal and
configuration, `calculate_order_levels` returns exactly `num_levels` bid
and `num_levels` ask levels; on each side the `offset_bps` values
strictly increase with the level index when `level_spacing_bps > 0`,
and are non-decreasing when `level_spacing_bps ≥ 0`. -/
theorem order_levels_C5 (cfg : MMConfig) (mid : ℚ) (dsig : Option String) :
    ((calculate_order_levels cfg mid dsig).bids.length = cfg.num_levels
      ∧ (calculate_order_levels cfg mid dsig).asks.length = cfg.num_levels)
    ∧ (0 < cfg.level_spacing_bps →
        List.Pairwise (fun a b : ℚ => a < b)
          ((calculate_order_levels cfg mid dsig).bids.map (fun l => l.offset_bps))
        ∧ List.Pairwise (fun a b : ℚ => a < b)
          ((calculate_order_levels cfg mid dsig).asks.map (fun l => l.offset_bps)))
    ∧ (0 ≤ cfg.level_spacing_bps →
        List.Pairwise (fun a b : ℚ => a ≤ b)
          ((calculate_order_levels cfg mid dsig).bids.map (fun l => l.offset_bps))
        ∧ List.Pairwise (fun a b : ℚ => a ≤ b)
          ((calculate_order_levels cfg mid dsig).asks.map (fun l => l.offset_bps))) := by
  refine ⟨⟨?_, ?_⟩, fun hs => ⟨?_, ?_⟩, fun hs => ⟨?_, ?_⟩⟩ <;>
    simp only [calculate_order_levels, List.map_map, List.length_map, List.length_range,
      Function.comp]
  · exact List.Pairwise.map _
      (fun a b hab => by
        have hc : (a : ℚ) < (b : ℚ) := by exact_mod_cast hab
        exact add_lt_add_left (mul_lt_mul_of_pos_right hc hs) _)
      (List.pairwise_lt_range _)
  · exact List.Pairwise.map _
      (fun a b hab => by
        have hc : (a : ℚ) < (b : ℚ) := by exact_mod_cast hab
        exact add_lt_add_left (mul_lt_mul_of_pos_right hc hs) _)
      (List.pairwise_lt_range _)
  · exact List.Pairwise.map _
      (fun a b hab => by
        have hc : (a : ℚ) ≤ (b : ℚ) := by exact_mod_cast hab.le
        exact add_le_add_left (mul_le_mul_of_nonneg_right hc hs) _)
      (List.pairwise_lt_range _)
  · exact List.Pairwise.map _
      (fun a b hab => by
        have hc : (a : ℚ) ≤ (b : ℚ) := by exact_mod_cast hab.le
        exact add_le_add_left (mul_le_mul_of_nonneg_right hc hs) _)
      (List.pairwise_lt_range _)

theorem order_levels_C5_witness :
    ((calculate_order_levels mmCfgStd 100 none).bids.length = mmCfgStd.num_levels)
    ∧ List.Pairwise (fun a b : ℚ => a < b)
        ((calculate_order_levels mmCfgStd 100 none).bids.map (fun l => l.offset_bps)) :=
  ⟨(order_levels_C5 mmCfgStd 100 none).1.1,
   ((order_levels_C5 mmCfgStd 100 none).2.1 (by norm_num [mmCfgStd])).1⟩

/-- Claim C7: for every mid price and level `i < num_levels`,
`calculate_order_levels` sets `offset_bps = spread_bps + i * level_spacing_bps`,
`bid price = mid * (1 - offset/10000)` and `ask price = mid * (1 + offset/10000)`;
with mid 100, no signal, 3 levels, half-spread 10 bps and spacing 5 bps
the offsets are [10, 15, 20] bps, the bid prices [99.90, 99.85, 99.80]
and the ask prices [100.10, 100.15, 100.20]. -/
theorem order_level_formula_C7 :
    (∀ (cfg : MMConfig) (mid : ℚ) (dsig : Option String) (i : Nat), i < cfg.num_levels →
      (calculate_order_levels cfg mid dsig).bids[i]? = some
        { price := mid * (1 - (cfg.spread_bps + (i : ℚ) * cfg.level_spacing_bps) / 10000)
          size := cfg.order_size_usd * (sizeMultipliers cfg dsig).1 / mid
          size_usd := cfg.order_size_usd * (sizeMultipliers cfg dsig).1
          level := i
          offset_bps := cfg.spread_bps + (i : ℚ) * cfg.level_spacing_bps }
      ∧ (calculate_order_levels cfg mid dsig).asks[i]? = some
        { price := mid * (1 + (cfg.spread_bps + (i : ℚ) * cfg.level_spacing_bps) / 10000)
          size := cfg.order_size_usd * (sizeMultipliers cfg dsig).2 / mid
          size_usd := cfg.order_size_usd * (sizeMultipliers cfg dsig).2
          level := i
          offset_bps := cfg.spread_bps + (i : ℚ) * cfg.level_spacing_bps })
    ∧ ((calculate_order_levels mmCfgStd 100 none).bids.map (fun l => l.offset_bps) = [10, 15, 20]
      ∧ (calculate_order_levels mmCfgStd 100 none).asks.map (fun l => l.offset_bps) = [10, 15, 20]
      ∧ (calculate_order_levels mmCfgStd 100 none).bids.map (fun l => l.price)
          = [(99.90 : ℚ), 99.85, 99.80]
      ∧ (calculate_order_levels mmCfgStd 100 none).asks.map (fun l => l.price)
          = [(100.10 : ℚ), 100.15, 100.20]) := by
  constructor
  · intro cfg mid dsig i hi
    constructor <;>
      simp [calculate_order_levels, List.getElem?_map, List.getElem?_range hi]
  · refine ⟨by decide, by decide, by decide, by decide⟩

theorem order_level_formula_C7_witness :
    (calculate_order_levels mmCfgStd 100 none).bids[1]? = some
      { price := 100 * (1 - (mmCfgStd.spread_bps + ((1 : Nat) : ℚ) * mmCfgStd.level_spacing_bps) / 10000)
        size := mmCfgStd.order_size_usd * (sizeMultipliers mmCfgStd none).1 / 100
        size_usd := mmCfgStd.order_size_usd * (sizeMultipliers mmCfgStd none).1
        level := 1
        offset_bps := mmCfgStd.spread_bps + ((1 : Nat) : ℚ) * mmCfgStd.level_spacing_bps }
    ∧ (calculate_order_levels mmCfgStd 100 none).asks[1]? = some
      { price := 100 * (1 + (mmCfgStd.spread_bps + ((1 : Nat) : ℚ) * mmCfgStd.level_spacing_bps) / 10000)
        size := mmCfgStd.order_size_usd * (sizeMultipliers mmCfgStd none).2 / 100
        size_usd := mmCfgStd.order_size_usd * (sizeMultipliers mmCfgStd none).2
        level := 1
        offset_bps := mmCfgStd.spread_bps + ((1 : Nat) : ℚ) * mmCfgStd.level_spacing_bps } :=
  order_level_formula_C7.1 mmCfgStd 100 none 1 (by decide)

/-- Claim C8: `adjust_for_inventory` is the identity when
`max_position = 0` or `|current_position / max_position| ≤ 0.3`;
otherwise, with `adjustment = min |ratio| 0.5`, long inventory
(`ratio > 0`) scales every bid size/size_usd by `1 - adjustment` and
every ask by `1 + adjustment` (mirrored for short inventory) and
recomputes both side totals from the adjusted `size_usd` values; in
particular `current_position = 0.6 * max_position` gives adjustment
0.5, halving all bids and growing all asks by 50%. -/
theorem adjust_inventory_C8 (plan : MMPlan) (cp mp : ℚ) :
    (mp = 0 → adjust_for_inventory plan cp mp = plan)
    ∧ (|cp / mp| ≤ 3 / 10 → adjust_for_inventory plan cp mp = plan)
    ∧ (mp ≠ 0 → 3 / 10 < cp / mp →
        adjust_for_inventory plan cp mp = longAdjusted plan (min (cp / mp) (1 / 2)))
    ∧ (mp ≠ 0 → cp / mp < -(3 / 10) →
        adjust_for_inventory plan cp mp = shortAdjusted plan (min (-(cp / mp)) (1 / 2)))
    ∧ (mp ≠ 0 → adjust_for_inventory plan (6 / 10 * mp) mp = longAdjusted plan (1 / 2)) := by
  refine ⟨fun h0 => ?_, fun hle => ?_, fun hmp hgt => ?_, fun hmp hlt => ?_, fun hmp => ?_⟩
  · simp [adjust_for_inventory, h0]
  · by_cases h0 : mp = 0
    · simp [adjust_for_inventory, h0]
    · simp [adjust_for_inventory, h0, not_lt.mpr hle]
  · have hpos : 0 < cp / mp := lt_trans (by norm_num) hgt
    have habs : |cp / mp| = cp / mp := abs_of_pos hpos
    simp [adjust_for_inventory, hmp, habs, hgt, hpos]
  · have hneg : cp / mp < 0 := lt_trans hlt (by norm_num)
    have habs : |cp / mp| = -(cp / mp) := abs_of_neg hneg
    have hgt : (3 : ℚ) / 10 < -(cp / mp) := by linarith
    simp [adjust_for_inventory, hmp, habs, hgt, not_lt.mpr hneg.le, hneg]
  · have hr : (6 / 10 : ℚ) * mp / mp = 6 / 10 := by
      rw [mul_div_assoc, div_self hmp, mul_one]
    have habs : |(6 / 10 : ℚ)| = 6 / 10 := by norm_num
    have hmin : min ((6 : ℚ) / 10) (1 / 2) = 1 / 2 := by norm_num
    simp [adjust_for_inventory, hmp, hr, habs, hmin]
    norm_num

theorem adjust_inventory_C8_witness :
    adjust_for_inventory planC8W (6 / 10 * 1) 1 = longAdjusted planC8W (1 / 2) :=
  (adjust_inventory_C8 planC8W (6 / 10) 1).2.2.2.2 (by norm_num)

/-- Every branch of `emitResult` reports the current fast EMA. -/
theorem emitResult_fast (cfg : XOConfig) (cp fc sc : ℚ) (ps : List ℚ)
    (bs ss conf : Bool) (stv : Option (ℚ × ℚ)) :
    (emitResult cfg cp fc sc ps bs ss conf stv).fast_ema = some fc := by
  unfold emitResult
  dsimp only
  repeat' split
  all_goals rfl

/-- Every branch of `emitResult` reports the current slow EMA. -/
theorem emitResult_slow (cfg : XOConfig) (cp fc sc : ℚ) (ps : List ℚ)
    (bs ss conf : Bool) (stv : Option (ℚ × ℚ)) :
    (emitResult cfg cp fc sc ps bs ss conf stv).slow_ema = some sc := by
  unfold emitResult
  dsimp only
  repeat' split
  all_goals rfl

/-- `emitResult` emits a buy only when the buy flag is set. -/
theorem emitResult_buy_flag (cfg : XOConfig) (cp fc sc : ℚ) (ps : List ℚ)
    (bs ss conf : Bool) (stv : Option (ℚ × ℚ))
    (h : (emitResult cfg cp fc sc ps bs ss conf stv).signal = Signal.buy) : bs = true := by
  by_contra hbs
  rw [Bool.not_eq_true] at hbs
  subst hbs
  unfold emitResult at h
  dsimp only at h
  rw [if_neg (by simp : ¬(false = true))] at h
  revert h
  repeat' split
  all_goals simp_all

/-- `emitResult` emits a sell only when the sell flag is set. -/
theorem emitResult_sell_flag (cfg : XOConfig) (cp fc sc : ℚ) (ps : List ℚ)
    (bs ss conf : Bool) (stv : Option (ℚ × ℚ))
    (h : (emitResult cfg cp fc sc ps bs ss conf stv).signal = Signal.sell) : ss = true := by
  by_contra hss
  rw [Bool.not_eq_true] at hss
  subst hss
  unfold emitResult at h
  dsimp only at h
  revert h
  repeat' split
  all_goals simp_all

/-- Case analysis of a completed `analyze` call: either it took an early
return (state unchanged, hold, no EMAs in the result), or it ran
`analyzeCore` with some EMA values, passed the stochastic gate, emitted
via `emitResult` and stored the updated counters. -/
theorem analyze_ok_cases {cfg : XOConfig} {cp : ℚ} {ps : List ℚ} {st : Option StState}
    {r : AnalyzeResult} {st' : Option StState}
    (h : analyze cfg cp ps st = .ok (r, st')) :
    (st' = st ∧ (r = { emptyResult with rationale := "Insufficient price data" }
      ∨ r = { emptyResult with rationale := "Unable to calculate EMAs" }))
    ∨ ∃ fc fp sc sp conf stv,
        stochGate cfg ps st
            (buysignalB (updateCounts (bcount st) (scount st) fc sc).1
              (updateCounts (bcount st) (scount st) fc sc).2 (bullishCross fp sp fc sc))
            (sellsignalB (updateCounts (bcount st) (scount st) fc sc).1
              (updateCounts (bcount st) (scount st) fc sc).2 (bearishCross fp sp fc sc))
          = .ok (conf, stv)
        ∧ r = emitResult cfg cp fc sc ps
            (buysignalB (updateCounts (bcount st) (scount st) fc sc).1
              (updateCounts (bcount st) (scount st) fc sc).2 (bullishCross fp sp fc sc))
            (sellsignalB (updateCounts (bcount st) (scount st) fc sc).1
              (updateCounts (bcount st) (scount st) fc sc).2 (bearishCross fp sp fc sc))
            conf stv
        ∧ st' = some { buy_count := (updateCounts (bcount st) (scount st) fc sc).1
                       sell_count := (updateCounts (bcount st) (scount st) fc sc).2
                       fast_ema := fc
                       slow_ema := sc
                       stoch_rsi := stv } := by
  unfold analyze at h
  split at h
  · simp only [Except.ok.injEq, Prod.mk.injEq] at h
    exact Or.inl ⟨h.2.symm, Or.inl h.1.symm⟩
  · split at h
    · rename_i fc fp sc sp hfc hfp hsc hsp
      unfold analyzeCore at h
      dsimp only at h
      split at h
      · exact absurd h (by simp)
      · rename_i conf_stoch hgate
        simp only [Except.ok.injEq, Prod.mk.injEq] at h
        refine Or.inr ⟨fc, fp, sc, sp, conf_stoch.1, conf_stoch.2, ?_, h.1.symm, h.2.symm⟩
        rw [hgate, Prod.mk.eta]
    · simp only [Except.ok.injEq, Prod.mk.injEq] at h
      exact Or.inl ⟨h.2.symm, Or.inr h.1.symm⟩

/-- A completed call that emits `buy` started from `buy_count = 0` and
stored `buy_count = 1` (debounce: only the bar right after the flip). -/
theorem analyze_buy_counts {cfg : XOConfig} {cp : ℚ} {ps : List ℚ} {st : Option StState}
    {r : AnalyzeResult} {st' : Option StState}
    (h : analyze cfg cp ps st = .ok (r, st')) (hbuy : r.signal = Signal.buy) :
    bcount st = 0 ∧ bcount st' = 1 := by
  rcases analyze_ok_cases h with ⟨-, hr0⟩ | ⟨fc, fp, sc, sp, conf, stv, -, hr, hst⟩
  · rcases hr0 with rfl | rfl <;> simp [emptyResult] at hbuy
  · subst hr
    have hbs := emitResult_buy_flag _ _ _ _ _ _ _ _ _ hbuy
    simp only [buysignalB, Bool.and_eq_true, decide_eq_true_eq] at hbs
    obtain ⟨⟨⟨hlt2, hgt0⟩, -⟩, hcross⟩ := hbs
    simp only [bullishCross, Bool.and_eq_true, decide_eq_true_eq] at hcross
    have hupd : updateCounts (bcount st) (scount st) fc sc = (bcount st + 1, 0) := by
      simp [updateCounts, hcross.2]
    rw [hupd] at hlt2 hgt0
    replace hlt2 : bcount st + 1 < 2 := hlt2
    replace hgt0 : 0 < bcount st + 1 := hgt0
    refine ⟨by omega, ?_⟩
    rw [hst]
    show (updateCounts (bcount st) (scount st) fc sc).1 = 1
    rw [hupd]
    show bcount st + 1 = 1
    omega

/-- A completed call that emits `sell` started from `sell_count = 0` and
stored `sell_count = 1`. -/
theorem analyze_sell_counts {cfg : XOConfig} {cp : ℚ} {ps : List ℚ} {st : Option StState}
    {r : AnalyzeResult} {st' : Option StState}
    (h : analyze cfg cp ps st = .ok (r, st')) (hsell : r.signal = Signal.sell) :
    scount st = 0 ∧ scount st' = 1 := by
  rcases analyze_ok_cases h with ⟨-, hr0⟩ | ⟨fc, fp, sc, sp, conf, stv, -, hr, hst⟩
  · rcases hr0 with rfl | rfl <;> simp [emptyResult] at hsell
  · subst hr
    have hss := emitResult_sell_flag _ _ _ _ _ _ _ _ _ hsell
    simp only [sellsignalB, Bool.and_eq_true, decide_eq_true_eq] at hss
    obtain ⟨⟨⟨hgt0, hlt2⟩, -⟩, hcross⟩ := hss
    simp only [bearishCross, Bool.and_eq_true, decide_eq_true_eq] at hcross
    have hupd : updateCounts (bcount st) (scount st) fc sc = (0, scount st + 1) := by
      simp [updateCounts, hcross.2, not_lt.mpr hcross.2.le, lt_asymm hcross.2]
    rw [hupd] at hgt0 hlt2
    replace hgt0 : 0 < scount st + 1 := hgt0
    replace hlt2 : scount st + 1 < 2 := hlt2
    refine ⟨by omega, ?_⟩
    rw [hst]
    show (updateCounts (bcount st) (scount st) fc sc).2 = 1
    rw [hupd]
    show scount st + 1 = 1
    omega

/-- A completed call on a bar that is not bearish keeps a positive
`buy_count` positive. -/
theorem analyze_keeps_buy {cfg : XOConfig} {cp : ℚ} {ps : List ℚ} {st : Option StState}
    {r : AnalyzeResult} {st' : Option StState}
    (h : analyze cfg cp ps st = .ok (r, st')) (hnb : isBearishBarB r = false)
    (h1 : 1 ≤ bcount st) : 1 ≤ bcount st' := by
  rcases analyze_ok_cases h with ⟨hst, -⟩ | ⟨fc, fp, sc, sp, conf, stv, -, hr, hst⟩
  · rw [hst]; exact h1
  · rw [hr] at hnb
    simp only [isBearishBarB, emitResult_fast, emitResult_slow,
      decide_eq_false_iff_not, not_lt] at hnb
    rw [hst]
    simp only [bcount, updateCounts]
    rcases lt_or_eq_of_le hnb with hlt | heq
    · rw [if_pos hlt]
      exact Nat.le_add_left 1 _
    · rw [if_neg (by rw [heq]; exact lt_irrefl fc), if_neg (by rw [heq]; exact lt_irrefl fc)]
      exact h1

/-- A completed call on a bar that is not bullish keeps a positive
`sell_count` positive. -/
theorem analyze_keeps_sell {cfg : XOConfig} {cp : ℚ} {ps : List ℚ} {st : Option StState}
    {r : AnalyzeResult} {st' : Option StState}
    (h : analyze cfg cp ps st = .ok (r, st')) (hnb : isBullishBarB r = false)
    (h1 : 1 ≤ scount st) : 1 ≤ scount st' := by
  rcases analyze_ok_cases h with ⟨hst, -⟩ | ⟨fc, fp, sc, sp, conf, stv, -, hr, hst⟩
  · rw [hst]; exact h1
  · rw [hr] at hnb
    simp only [isBullishBarB, emitResult_fast, emitResult_slow,
      decide_eq_false_iff_not, not_lt] at hnb
    rw [hst]
    simp only [scount, updateCounts]
    rw [if_neg (not_lt.mpr hnb)]
    rcases lt_or_eq_of_le hnb with hlt | heq
    · rw [if_pos hlt]
      exact Nat.le_add_left 1 _
    · rw [if_neg (by rw [heq]; exact lt_irrefl sc)]
      exact h1

/-- One completed call preserves the invariant that the two debounce
counters are not both positive. -/
theorem analyze_not_both {cfg : XOConfig} {cp : ℚ} {ps : List ℚ} {st : Option StState}
    {r : AnalyzeResult} {st' : Option StState}
    (h : analyze cfg cp ps st = .ok (r, st'))
    (hs : ¬(0 < bcount st ∧ 0 < scount st)) :
    ¬(0 < bcount st' ∧ 0 < scount st') := by
  rcases analyze_ok_cases h with ⟨hst, -⟩ | ⟨fc, fp, sc, sp, conf, stv, -, -, hst⟩
  · rw [hst]; exact hs
  · rw [hst]
    simp only [bcount, scount, updateCounts]
    split
    · simp
    · split
      · simp
      · exact hs

/-- While the stored `buy_count` is positive, no further buy can be
emitted before a bearish bar appears in the trace. -/
theorem trace_no_buy_while_bull (cfg : XOConfig) :
    ∀ (calls : List (ℚ × List ℚ)) (st : Option StState), 1 ≤ bcount st →
      ∀ (m : Nat) (r : AnalyzeResult), (analyzeTrace cfg calls st)[m]? = some r →
        r.signal = Signal.buy →
        ∃ (k : Nat) (rk : AnalyzeResult), k < m ∧ (analyzeTrace cfg calls st)[k]? = some rk
          ∧ isBearishBarB rk = true := by
  intro calls
  induction calls with
  | nil =>
    intro st _ m r hm
    simp [analyzeTrace] at hm
  | cons c cs ih =>
    intro st hst m r hm hsig
    simp only [analyzeTrace] at hm ⊢
    rcases heq : analyze cfg c.1 c.2 st with e | rs
    · rw [heq] at hm
      simp at hm
    · rw [heq] at hm
      dsimp only at hm ⊢
      cases m with
      | zero =>
        simp only [List.getElem?_cons_zero, Option.some.injEq] at hm
        subst hm
        have := (analyze_buy_counts heq hsig).1
        omega
      | succ m' =>
        rw [List.getElem?_cons_succ] at hm
        cases hb : isBearishBarB rs.1
        · have hst2 : 1 ≤ bcount rs.2 := analyze_keeps_buy heq hb hst
          obtain ⟨k, rk, hkm, hk, hbear⟩ := ih rs.2 hst2 m' r hm hsig
          exact ⟨k + 1, rk, Nat.succ_lt_succ hkm, by
            rw [List.getElem?_cons_succ]; exact hk, hbear⟩
        · exact ⟨0, rs.1, Nat.succ_pos _, List.getElem?_cons_zero, hb⟩

/-- While the stored `sell_count` is positive, no further sell can be
emitted before a bullish bar appears in the trace. -/
theorem trace_no_sell_while_bear (cfg : XOConfig) :
    ∀ (calls : List (ℚ × List ℚ)) (st : Option StState), 1 ≤ scount st →
      ∀ (m : Nat) (r : AnalyzeResult), (analyzeTrace cfg calls st)[m]? = some r →
        r.signal = Signal.sell →
        ∃ (k : Nat) (rk : AnalyzeResult), k < m ∧ (analyzeTrace cfg calls st)[k]? = some rk
          ∧ isBullishBarB rk = true := by
  intro calls
  induction calls with
  | nil =>
    intro st _ m r hm
    simp [analyzeTrace] at hm
  | cons c cs ih =>
    intro st hst m r hm hsig
    simp only [analyzeTrace] at hm ⊢
    rcases heq : analyze cfg c.1 c.2 st with e | rs
    · rw [heq] at hm
      simp at hm
    · rw [heq] at hm
      dsimp only at hm ⊢
      cases m with
      | zero =>
        simp only [List.getElem?_cons_zero, Option.some.injEq] at hm
        subst hm
        have := (analyze_sell_counts heq hsig).1
        omega
      | succ m' =>
        rw [List.getElem?_cons_succ] at hm
        cases hb : isBullishBarB rs.1
        · have hst2 : 1 ≤ scount rs.2 := analyze_keeps_sell heq hb hst
          obtain ⟨k, rk, hkm, hk, hbear⟩ := ih rs.2 hst2 m' r hm hsig
          exact ⟨k + 1, rk, Nat.succ_lt_succ hkm, by
            rw [List.getElem?_cons_succ]; exact hk, hbear⟩
        · exact ⟨0, rs.1, Nat.succ_pos _, List.getElem?_cons_zero, hb⟩

/-- Between any two emitted buys lies a bearish bar. -/
theorem trace_two_buys (cfg : XOConfig) :
    ∀ (calls : List (ℚ × List ℚ)) (st : Option StState) (i j : Nat)
      (ri rj : AnalyzeResult), i < j →
      (analyzeTrace cfg calls st)[i]? = some ri → ri.signal = Signal.buy →
      (analyzeTrace cfg calls st)[j]? = some rj → rj.signal = Signal.buy →
      ∃ (k : Nat) (rk : AnalyzeResult), i < k ∧ k < j
        ∧ (analyzeTrace cfg calls st)[k]? = some rk ∧ isBearishBarB rk = true := by
  intro calls
  induction calls with
  | nil =>
    intro st i j ri rj _ hi
    simp [analyzeTrace] at hi
  | cons c cs ih =>
    intro st i j ri rj hij hi hsi hj hsj
    simp only [analyzeTrace] at hi hj ⊢
    rcases heq : analyze cfg c.1 c.2 st with e | rs
    · rw [heq] at hi
      simp at hi
    · rw [heq] at hi hj
      dsimp only at hi hj ⊢
      obtain ⟨j', rfl⟩ : ∃ j', j = j' + 1 := ⟨j - 1, by omega⟩
      rw [List.getElem?_cons_succ] at hj
      cases i with
      | zero =>
        simp only [List.getElem?_cons_zero, Option.some.injEq] at hi
        subst hi
        have h1 : 1 ≤ bcount rs.2 := by
          have := (analyze_buy_counts heq hsi).2
          omega
        obtain ⟨k, rk, hkm, hk, hbear⟩ :=
          trace_no_buy_while_bull cfg cs rs.2 h1 j' rj hj hsj
        exact ⟨k + 1, rk, Nat.succ_pos _, Nat.succ_lt_succ hkm, by
          rw [List.getElem?_cons_succ]; exact hk, hbear⟩
      | succ i' =>
        rw [List.getElem?_cons_succ] at hi
        obtain ⟨k, rk, hik, hkj, hk, hbear⟩ :=
          ih rs.2 i' j' ri rj (by omega) hi hsi hj hsj
        exact ⟨k + 1, rk, Nat.succ_lt_succ hik, Nat.succ_lt_succ hkj, by
          rw [List.getElem?_cons_succ]; exact hk, hbear⟩

/-- Between any two emitted sells lies a bullish bar. -/
theorem trace_two_sells (cfg : XOConfig) :
    ∀ (calls : List (ℚ × List ℚ)) (st : Option StState) (i j : Nat)
      (ri rj : AnalyzeResult), i < j →
      (analyzeTrace cfg calls st)[i]? = some ri → ri.signal = Signal.sell →
      (analyzeTrace cfg calls st)[j]? = some rj → rj.signal = Signal.sell →
      ∃ (k : Nat) (rk : AnalyzeResult), i < k ∧ k < j
        ∧ (analyzeTrace cfg calls st)[k]? = some rk ∧ isBullishBarB rk = true := by
  intro calls
  induction calls with
  | nil =>
    intro st i j ri rj _ hi
    simp [analyzeTrace] at hi
  | cons c cs ih =>
    intro st i j ri rj hij hi hsi hj hsj
    simp only [analyzeTrace] at hi hj ⊢
    rcases heq : analyze cfg c.1 c.2 st with e | rs
    · rw [heq] at hi
      simp at hi
    · rw [heq] at hi hj
      dsimp only at hi hj ⊢
      obtain ⟨j', rfl⟩ : ∃ j', j = j' + 1 := ⟨j - 1, by omega⟩
      rw [List.getElem?_cons_succ] at hj
      cases i with
      | zero =>
        simp only [List.getElem?_cons_zero, Option.some.injEq] at hi
        subst hi
        have h1 : 1 ≤ scount rs.2 := by
          have := (analyze_sell_counts heq hsi).2
          omega
        obtain ⟨k, rk, hkm, hk, hbear⟩ :=
          trace_no_sell_while_bear cfg cs rs.2 h1 j' rj hj hsj
        exact ⟨k + 1, rk, Nat.succ_pos _, Nat.succ_lt_succ hkm, by
          rw [List.getElem?_cons_succ]; exact hk, hbear⟩
      | succ i' =>
        rw [List.getElem?_cons_succ] at hi
        obtain ⟨k, rk, hik, hkj, hk, hbear⟩ :=
          ih rs.2 i' j' ri rj (by omega) hi hsi hj hsj
        exact ⟨k + 1, rk, Nat.succ_lt_succ hik, Nat.succ_lt_succ hkj, by
          rw [List.getElem?_cons_succ]; exact hk, hbear⟩

/-- A successful run of sequential calls preserves the counter-exclusion
invariant. -/
theorem runState_not_both (cfg : XOConfig) :
    ∀ (calls : List (ℚ × List ℚ)) (st st' : Option StState),
      ¬(0 < bcount st ∧ 0 < scount st) → runState cfg calls st = .ok st' →
      ¬(0 < bcount st' ∧ 0 < scount st') := by
  intro calls
  induction calls with
  | nil =>
    intro st st' hs h
    simp only [runState, Except.ok.injEq] at h
    exact h ▸ hs
  | cons c cs ih =>
    intro st st' hs h
    simp only [runState] at h
    rcases heq : analyze cfg c.1 c.2 st with e | rs
    · rw [heq] at h
      simp at h
    · rw [heq] at h
      dsimp only at h
      exact ih rs.2 st' (analyze_not_both heq hs) h

/-- Claim C3: in every state reachable from the initial empty
`prev_states` map by any sequence of `analyze` calls on an asset, the
stored `buy_count` and `sell_count` are never both positive: each
evaluation that updates the counters zeroes the one opposite to the
current trend. -/
theorem counters_exclusive_C3 (cfg : XOConfig) (calls : List (ℚ × List ℚ))
    (st' : Option StState) (h : runState cfg calls none = .ok st') :
    ¬(0 < bcount st' ∧ 0 < scount st') :=
  runState_not_both cfg calls none st' (by simp [bcount, scount]) h

theorem counters_exclusive_C3_witness :
    ¬(0 < bcount (some stC3W) ∧ 0 < scount (some stC3W)) :=
  counters_exclusive_C3 cfgC3W [((5 : ℚ), [5, 5, 5, 5])] (some stC3W) (by decide)

/-- Claim C2: on the rising-then-falling path `pricesC2`, sequential
per-bar calls emit exactly one buy (bar 4) and later exactly one sell
(bar 9); and in general no two buys are emitted without an intervening
bearish bar (fast EMA < slow EMA), and mirror for sells — while the
debounce counters remain in the already-signaled range no signal
repeats. -/
theorem one_shot_signals_C2 :
    ((analyzeTrace cfgC2 callsC2 none).map (fun r => r.signal)
        = [Signal.hold, Signal.hold, Signal.hold, Signal.hold, Signal.buy, Signal.hold,
           Signal.hold, Signal.hold, Signal.hold, Signal.sell, Signal.hold, Signal.hold]
      ∧ ((analyzeTrace cfgC2 callsC2 none).map (fun r => r.signal)).count Signal.buy = 1
      ∧ ((analyzeTrace cfgC2 callsC2 none).map (fun r => r.signal)).count Signal.sell = 1)
    ∧ (∀ (cfg : XOConfig) (calls : List (ℚ × List ℚ)) (st : Option StState) (i j : Nat)
        (ri rj : AnalyzeResult), i < j →
        (analyzeTrace cfg calls st)[i]? = some ri → ri.signal = Signal.buy →
        (analyzeTrace cfg calls st)[j]? = some rj → rj.signal = Signal.buy →
        ∃ (k : Nat) (rk : AnalyzeResult), i < k ∧ k < j
          ∧ (analyzeTrace cfg calls st)[k]? = some rk ∧ isBearishBarB rk = true)
    ∧ (∀ (cfg : XOConfig) (calls : List (ℚ × List ℚ)) (st : Option StState) (i j : Nat)
        (ri rj : AnalyzeResult), i < j →
        (analyzeTrace cfg calls st)[i]? = some ri → ri.signal = Signal.sell →
        (analyzeTrace cfg calls st)[j]? = some rj → rj.signal = Signal.sell →
        ∃ (k : Nat) (rk : AnalyzeResult), i < k ∧ k < j
          ∧ (analyzeTrace cfg calls st)[k]? = some rk ∧ isBullishBarB rk = true) :=
  ⟨by decide, trace_two_buys, trace_two_sells⟩

theorem one_shot_signals_C2_witness :
    ∃ (k : Nat) (rk : AnalyzeResult), 4 < k ∧ k < 10
      ∧ (analyzeTrace cfgC2 callsC2W none)[k]? = some rk ∧ isBearishBarB rk = true := by
  obtain ⟨r4, h4, hs4⟩ : ∃ r, (analyzeTrace cfgC2 callsC2W none)[4]? = some r
      ∧ r.signal = Signal.buy := by
    have h : ((analyzeTrace cfgC2 callsC2W none)[4]?).map (fun r => r.signal)
        = some Signal.buy := by decide
    obtain ⟨r, hr, hsig⟩ := Option.map_eq_some'.mp h
    exact ⟨r, hr, hsig⟩
  obtain ⟨r10, h10, hs10⟩ : ∃ r, (analyzeTrace cfgC2 callsC2W none)[10]? = some r
      ∧ r.signal = Signal.buy := by
    have h : ((analyzeTrace cfgC2 callsC2W none)[10]?).map (fun r => r.signal)
        = some Signal.buy := by decide
    obtain ⟨r, hr, hsig⟩ := Option.map_eq_some'.mp h
    exact ⟨r, hr, hsig⟩
  exact one_shot_signals_C2.2.1 cfgC2 callsC2W none 4 10 r4 r10 (by omega) h4 hs4 h10 hs10

/-- Consecutive deltas of a constant price list are all zero. -/
theorem deltas_replicate (n : Nat) (c : ℚ) :
    deltas (List.replicate n c) = List.replicate (n - 1) 0 := by
  induction n with
  | zero => rfl
  | succ m ih =>
    cases m with
    | zero => rfl
    | succ p =>
      show deltas (c :: c :: List.replicate p c) = List.replicate (p + 1) 0
      rw [show deltas (c :: c :: List.replicate p c)
            = (c - c) :: deltas (c :: List.replicate p c) from rfl]
      have h2 : deltas (c :: List.replicate p c) = List.replicate p 0 := by
        have h3 := ih
        rwa [show List.replicate (p + 1) c = c :: List.replicate p c from rfl,
             show p + 1 - 1 = p from rfl] at h3
      rw [h2, sub_self,
        show List.replicate (p + 1) (0 : ℚ) = 0 :: List.replicate p 0 from rfl]

/-- On a constant price list the RSI is 100 whenever it is defined: all
deltas are zero, so the average loss is zero. -/
theorem calculate_rsi_replicate (m p : Nat) (c : ℚ) :
    calculate_rsi (List.replicate m c) p = none
    ∨ calculate_rsi (List.replicate m c) p = some 100 := by
  unfold calculate_rsi
  dsimp only
  split
  · exact Or.inl rfl
  · split
    · exact Or.inl rfl
    · right
      rw [if_pos]
      rw [deltas_replicate, List.map_replicate, List.drop_replicate, List.sum_replicate]
      simp

/-- Folding `max` over a list of copies of the accumulator is the
accumulator. -/
theorem foldl_max_const (v : ℚ) : ∀ (xs : List ℚ), (∀ x ∈ xs, x = v) →
    xs.foldl max v = v := by
  intro xs
  induction xs with
  | nil => intro _; rfl
  | cons y ys ih =>
    intro h
    have hy : y = v := h y (by simp)
    rw [List.foldl_cons, hy, max_self]
    exact ih (fun x hx => h x (by simp [hx]))

/-- Folding `min` over a list of copies of the accumulator is the
accumulator. -/
theorem foldl_min_const (v : ℚ) : ∀ (xs : List ℚ), (∀ x ∈ xs, x = v) →
    xs.foldl min v = v := by
  intro xs
  induction xs with
  | nil => intro _; rfl
  | cons y ys ih =>
    intro h
    have hy : y = v := h y (by simp)
    rw [List.foldl_cons, hy, min_self]
    exact ih (fun x hx => h x (by simp [hx]))

/-- On a list whose elements are all equal, Python's `max` and `min`
coincide. -/
theorem listMax_eq_listMin_of_const {w : List ℚ} {v : ℚ} (h : ∀ x ∈ w, x = v) :
    listMax w = listMin w := by
  cases w with
  | nil => rfl
  | cons y ys =>
    have hy : y = v := h y (by simp)
    have hall : ∀ x ∈ ys, x = v := fun x hx => h x (by simp [hx])
    rw [listMax, listMin, hy, foldl_max_const v ys hall, foldl_min_const v ys hall]

/-- The sum of a list whose elements all equal `v`. -/
theorem sum_of_const {l : List ℚ} {v : ℚ} (h : ∀ x ∈ l, x = v) :
    l.sum = l.length * v := by
  induction l with
  | nil => simp
  | cons y ys ih =>
    have hy : y = v := h y (by simp)
    rw [List.sum_cons, hy, ih (fun x hx => h x (by simp [hx])), List.length_cons]
    push_cast
    ring

/-- Every RSI value computed over prefixes of a constant price list is
100. -/
theorem rsiSeries_replicate (cfg : XOConfig) (n : Nat) (c : ℚ) :
    ∀ y ∈ rsiSeries cfg (List.replicate n c), y = 100 := by
  intro y hy
  rw [rsiSeries, List.mem_filterMap] at hy
  obtain ⟨i, -, hcalc⟩ := hy
  rw [List.take_replicate] at hcalc
  rcases calculate_rsi_replicate (min i n) cfg.stoch_rsi_length c with hnone | h100
  · rw [hnone] at hcalc
    exact absurd hcalc (by simp)
  · rw [h100] at hcalc
    exact (Option.some.injEq _ _ ▸ hcalc).symm

/-- Every raw stochastic value over a constant RSI series is 50: each
rolling window has max = min, so the division-free branch is taken. -/
theorem stochSeries_const (cfg : XOConfig) (rv : List ℚ) (v : ℚ)
    (hall : ∀ y ∈ rv, y = v) :
    ∀ x ∈ stochSeries cfg rv, x = 50 := by
  intro x hx
  rw [stochSeries, List.mem_map] at hx
  obtain ⟨i, -, hx⟩ := hx
  have hwin : ∀ y ∈ (rv.drop (i - cfg.stoch_length)).take cfg.stoch_length, y = v :=
    fun y hy =>
      hall y (List.Sublist.mem (List.Sublist.mem hy (List.take_sublist _ _))
        (List.drop_sublist _ _))
  rw [← hx, if_pos (listMax_eq_listMin_of_const hwin)]

/-- The average of the trailing `k` elements of an all-50 list is 50. -/
theorem avg_drop_const {l : List ℚ} (h : ∀ x ∈ l, x = 50) (k : Nat)
    (hk : 1 ≤ k) (hlen : k ≤ l.length) :
    (l.drop (l.length - k)).sum / (k : ℚ) = 50 := by
  have hall : ∀ x ∈ l.drop (l.length - k), x = (50 : ℚ) :=
    fun x hx => h x (List.Sublist.mem hx (List.drop_sublist _ _))
  rw [sum_of_const hall, List.length_drop, Nat.sub_sub_self hlen]
  exact mul_div_cancel_left₀ 50 (Nat.cast_ne_zero.mpr (by omega))

/-- Claim C9: on a constant (zero-variance) price sequence every raw
stochastic value is 50 (each rolling window has max = min, so the
division-free branch is taken and no division by zero occurs), and
whenever `calculate_stochastic_rsi` returns a value, both K and D equal
50. -/
theorem stochastic_rsi_const_C9 (cfg : XOConfig) (n : Nat) (c : ℚ)
    (hsrl : 1 ≤ cfg.stoch_rsi_length) (hsl : 1 ≤ cfg.stoch_length)
    (hk : 1 ≤ cfg.stoch_rsi_k) (hd : 1 ≤ cfg.stoch_rsi_d) :
    (∀ x ∈ stochSeries cfg (rsiSeries cfg (List.replicate n c)), x = 50)
    ∧ ∀ kd, calculate_stochastic_rsi cfg (List.replicate n c) = some kd → kd = (50, 50) := by
  have hall : ∀ x ∈ stochSeries cfg (rsiSeries cfg (List.replicate n c)), x = 50 :=
    stochSeries_const cfg _ 100 (rsiSeries_replicate cfg n c)
  refine ⟨hall, ?_⟩
  intro kd h
  unfold calculate_stochastic_rsi at h
  dsimp only at h
  split at h
  · exact absurd h (by simp)
  · split at h
    · exact absurd h (by simp)
    · split at h
      · exact absurd h (by simp)
      · rename_i hg1 hg2 hg3
        rw [Option.some.injEq] at h
        have hsvlen : cfg.stoch_rsi_k ≤ (stochSeries cfg (rsiSeries cfg (List.replicate n c))).length :=
          le_of_not_lt hg3
        have hK : ((stochSeries cfg (rsiSeries cfg (List.replicate n c))).drop
              ((stochSeries cfg (rsiSeries cfg (List.replicate n c))).length
                - cfg.stoch_rsi_k)).sum / (cfg.stoch_rsi_k : ℚ) = 50 :=
          avg_drop_const hall cfg.stoch_rsi_k hk hsvlen
        rw [← h]
        rw [hK]
        split
        · rfl
        · rename_i hg4
          have hkv : ∀ z ∈ (List.range' cfg.stoch_rsi_k
              ((stochSeries cfg (rsiSeries cfg (List.replicate n c))).length + 1 - cfg.stoch_rsi_k)).map
                (fun i => (((stochSeries cfg (rsiSeries cfg (List.replicate n c))).drop
                  (i - cfg.stoch_rsi_k)).take cfg.stoch_rsi_k).sum / (cfg.stoch_rsi_k : ℚ)),
              z = (50 : ℚ) := by
            intro z hz
            rw [List.mem_map] at hz
            obtain ⟨i, hi, hzi⟩ := hz
            rw [List.mem_range'] at hi
            obtain ⟨t, ht, hit⟩ := hi
            have hiub : i ≤ (stochSeries cfg (rsiSeries cfg (List.replicate n c))).length := by
              omega
            have hwall : ∀ x ∈ ((stochSeries cfg (rsiSeries cfg (List.replicate n c))).drop
                (i - cfg.stoch_rsi_k)).take cfg.stoch_rsi_k, x = (50 : ℚ) :=
              fun x hx => hall x (List.Sublist.mem
                (List.Sublist.mem hx (List.take_sublist _ _)) (List.drop_sublist _ _))
            rw [← hzi, sum_of_const hwall, List.length_take, List.length_drop]
            have hmin : min cfg.stoch_rsi_k
                ((stochSeries cfg (rsiSeries cfg (List.replicate n c))).length
                  - (i - cfg.stoch_rsi_k)) = cfg.stoch_rsi_k := by
              omega
            rw [hmin]
            exact mul_div_cancel_left₀ 50 (Nat.cast_ne_zero.mpr (by omega))
          have hlen2 : cfg.stoch_rsi_d ≤ ((List.range' cfg.stoch_rsi_k
              ((stochSeries cfg (rsiSeries cfg (List.replicate n c))).length + 1 - cfg.stoch_rsi_k)).map
                (fun i => (((stochSeries cfg (rsiSeries cfg (List.replicate n c))).drop
                  (i - cfg.stoch_rsi_k)).take cfg.stoch_rsi_k).sum / (cfg.stoch_rsi_k : ℚ))).length := by
            rw [List.length_map, List.length_range']
            omega
          rw [avg_drop_const hkv cfg.stoch_rsi_d hd hlen2]

theorem stochastic_rsi_const_C9_witness :
    calculate_stochastic_rsi cfgC9W (List.replicate 6 7) = some (50, 50) := by
  have hs : (calculate_stochastic_rsi cfgC9W (List.replicate 6 7)).isSome = true := by decide
  obtain ⟨kd, hkd⟩ := Option.isSome_iff_exists.mp hs
  have h50 := (stochastic_rsi_const_C9 cfgC9W 6 7 (by decide) (by decide) (by decide)
    (by decide)).2 kd hkd
  rw [hkd, h50]

/-- On the first call for an asset the stochastic gate sees the current
K/D as the previous ones, so both cross flags are false and the
confirmation flag is down exactly when a signal flag is up. -/
theorem stochGate_first (cfg : XOConfig) (prices : List ℚ) (bs ss : Bool) (kd : ℚ × ℚ)
    (h1 : cfg.use_stoch_confirmation = true)
    (hkd : calculate_stochastic_rsi cfg prices = some kd) :
    stochGate cfg prices none bs ss = .ok (!ss && !bs, some kd) := by
  have hup : ∀ b : Bool, (decide (kd.1 ≤ kd.2) && decide (kd.1 > kd.2) && b) = false := by
    intro b
    rcases le_or_lt kd.1 kd.2 with hle | hlt
    · simp [not_lt.mpr hle]
    · simp [not_le.mpr hlt]
  have hdown : ∀ b : Bool, (decide (kd.1 ≥ kd.2) && decide (kd.1 < kd.2) && b) = false := by
    intro b
    rcases le_or_lt kd.2 kd.1 with hle | hlt
    · simp [not_lt.mpr hle]
    · simp [not_le.mpr hlt]
  unfold stochGate
  rw [if_pos h1, hkd]
  dsimp only [prevStochGet]
  rw [hup, hdown]
  simp only [Bool.not_false, Bool.and_true]
  cases bs <;> cases ss <;> rfl

theorem joinReasons_single (a : String) : joinReasons [a] = a := rfl

theorem joinReasons_pair (a b : String) : joinReasons [a, b] = a ++ ", " ++ b := rfl

/-- When the confirmation flag is forced down on whichever signal flag is
up, `emitResult` emits hold, and if a signal flag was up the rationale
ends in "StochRSI not confirmed"; otherwise it is one of the trend-hold
rationales. -/
theorem emitResult_blocked (cfg : XOConfig) (cp fc sc : ℚ) (ps : List ℚ) (bs ss conf : Bool)
    (stv : Option (ℚ × ℚ))
    (hb : bs = true → conf = false) (hs : ss = true → conf = false) :
    (emitResult cfg cp fc sc ps bs ss conf stv).signal = Signal.hold
    ∧ ((∃ a : String,
          (emitResult cfg cp fc sc ps bs ss conf stv).rationale = a ++ "StochRSI not confirmed")
      ∨ (emitResult cfg cp fc sc ps bs ss conf stv).rationale
          ∈ ["HOLD: Bullish trend (Fast EMA > Slow EMA), waiting for signal",
             "HOLD: Bearish trend (Fast EMA < Slow EMA), waiting for signal",
             "HOLD: EMAs aligned, no clear trend"]) := by
  by_cases hbs : bs = true
  · have hc := hb hbs
    subst hbs
    subst hc
    unfold emitResult
    dsimp only
    rw [if_pos (show true = true from rfl)]
    rw [show (check_ma_filter cfg cp ps true && false) = false from Bool.and_false _]
    rw [if_neg (show ¬(false = true) from by simp)]
    refine ⟨rfl, Or.inl ?_⟩
    by_cases hma : check_ma_filter cfg cp ps true = true
    · refine ⟨"BUY signal filtered out: ", ?_⟩
      rw [hma]
      simp [joinReasons]
    · rw [Bool.not_eq_true] at hma
      refine ⟨"BUY signal filtered out: "
        ++ ("price below " ++ (cfg.ma_filter_type ++ "(" ++ toString cfg.ma_filter_period ++ ")")
          ++ ", "), ?_⟩
      rw [hma]
      simp [joinReasons_pair, String.append_assoc]
  · rw [Bool.not_eq_true] at hbs
    subst hbs
    by_cases hss : ss = true
    · have hc := hs hss
      subst hss
      subst hc
      unfold emitResult
      dsimp only
      rw [if_neg (show ¬(false = true) from by simp)]
      rw [if_pos (show true = true from rfl)]
      rw [show (check_ma_filter cfg cp ps false && false) = false from Bool.and_false _]
      rw [if_neg (show ¬(false = true) from by simp)]
      refine ⟨rfl, Or.inl ?_⟩
      by_cases hma : check_ma_filter cfg cp ps false = true
      · refine ⟨"SELL signal filtered out: ", ?_⟩
        rw [hma]
        simp [joinReasons]
      · rw [Bool.not_eq_true] at hma
        refine ⟨"SELL signal filtered out: "
          ++ ("price above " ++ (cfg.ma_filter_type ++ "(" ++ toString cfg.ma_filter_period ++ ")")
            ++ ", "), ?_⟩
        rw [hma]
        simp [joinReasons_pair, String.append_assoc]
    · rw [Bool.not_eq_true] at hss
      subst hss
      unfold emitResult
      dsimp only
      rw [if_neg (show ¬(false = true) from by simp),
        if_neg (show ¬(false = true) from by simp)]
      refine ⟨?_, Or.inr ?_⟩
      · split
        · rfl
        · split
          · rfl
          · rfl
      · split
        · simp
        · split
          · simp
          · simp

/-- With no stored state the stochastic gate cannot raise. -/
theorem stochGate_none_ok (cfg : XOConfig) (prices : List ℚ) (bs ss : Bool) :
    ∃ p, stochGate cfg prices none bs ss = .ok p := by
  unfold stochGate
  split
  · split
    · exact ⟨_, rfl⟩
    · exact ⟨_, rfl⟩
  · exact ⟨_, rfl⟩

/-- A first call (no stored state) always completes without raising. -/
theorem analyze_none_ok (cfg : XOConfig) (cp : ℚ) (prices : List ℚ) :
    ∃ rs, analyze cfg cp prices none = .ok rs := by
  unfold analyze
  split
  · exact ⟨_, rfl⟩
  · split
    · rename_i fc fp sc sp hfc hfp hsc hsp
      unfold analyzeCore
      dsimp only
      obtain ⟨p, hp⟩ := stochGate_none_ok cfg prices
        (buysignalB (updateCounts (bcount (none : Option StState))
          (scount (none : Option StState)) fc sc).1
          (updateCounts (bcount (none : Option StState)) (scount (none : Option StState)) fc sc).2
          (bullishCross fp sp fc sc))
        (sellsignalB (updateCounts (bcount (none : Option StState))
          (scount (none : Option StState)) fc sc).1
          (updateCounts (bcount (none : Option StState)) (scount (none : Option StState)) fc sc).2
          (bearishCross fp sp fc sc))
      rw [hp]
      exact ⟨_, rfl⟩
    · exact ⟨_, rfl⟩

/-- Claim C10: on the first `analyze` call for an asset (no stored state)
with stochastic confirmation enabled and a computable Stochastic RSI,
the previous K/D defaults to the current K/D, so no fresh K/D cross can
be detected; any EMA-crossover buy or sell arising on that call is
blocked by the stochastic gate and the call emits hold, with a
"StochRSI not confirmed" rationale whenever a cross signal arose (and a
plain hold rationale otherwise). -/
theorem first_call_stoch_gate_C10 (cfg : XOConfig) (cp : ℚ) (prices : List ℚ)
    (h1 : cfg.use_stoch_confirmation = true)
    (h2 : (calculate_stochastic_rsi cfg prices).isSome = true) :
    match analyze cfg cp prices none with
    | .ok (r, _) => r.signal = Signal.hold
        ∧ ((∃ a : String, r.rationale = a ++ "StochRSI not confirmed")
          ∨ r.rationale ∈ ["HOLD: Bullish trend (Fast EMA > Slow EMA), waiting for signal",
              "HOLD: Bearish trend (Fast EMA < Slow EMA), waiting for signal",
              "HOLD: EMAs aligned, no clear trend",
              "Insufficient price data", "Unable to calculate EMAs"])
    | .error _ => False := by
  obtain ⟨kd, hkd⟩ := Option.isSome_iff_exists.mp h2
  obtain ⟨rs, hrs⟩ := analyze_none_ok cfg cp prices
  rw [hrs]
  dsimp only
  rcases analyze_ok_cases hrs with ⟨-, hr0⟩ | ⟨fc, fp, sc, sp, conf, stv, hgate, hr, -⟩
  · rcases hr0 with hr | hr <;> rw [hr] <;> exact ⟨rfl, Or.inr (by simp [emptyResult])⟩
  · rw [stochGate_first cfg prices _ _ kd h1 hkd] at hgate
    simp only [Except.ok.injEq, Prod.mk.injEq] at hgate
    obtain ⟨hconf, hstv⟩ := hgate
    rw [hr]
    have hblocked := emitResult_blocked cfg cp fc sc prices
      (buysignalB (updateCounts (bcount (none : Option StState))
        (scount (none : Option StState)) fc sc).1
        (updateCounts (bcount (none : Option StState)) (scount (none : Option StState)) fc sc).2
        (bullishCross fp sp fc sc))
      (sellsignalB (updateCounts (bcount (none : Option StState))
        (scount (none : Option StState)) fc sc).1
        (updateCounts (bcount (none : Option StState)) (scount (none : Option StState)) fc sc).2
        (bearishCross fp sp fc sc))
      conf stv
      (fun hb => by rw [← hconf, hb]; simp)
      (fun hsx => by rw [← hconf, hsx]; simp)
    exact ⟨hblocked.1, hblocked.2.imp id (fun h => by simp at h ⊢; tauto)⟩

theorem first_call_stoch_gate_C10_witness :
    match analyze cfgC10W 6 [5, 5, 5, 5, 6] none with
    | .ok (r, _) => r.signal = Signal.hold
        ∧ ((∃ a : String, r.rationale = a ++ "StochRSI not confirmed")
          ∨ r.rationale ∈ ["HOLD: Bullish trend (Fast EMA > Slow EMA), waiting for signal",
              "HOLD: Bearish trend (Fast EMA < Slow EMA), waiting for signal",
              "HOLD: EMAs aligned, no clear trend",
              "Insufficient price data", "Unable to calculate EMAs"])
    | .error _ => False :=
  first_call_stoch_gate_C10 cfgC10W 6 [5, 5, 5, 5, 6] (by decide) (by decide)

end
